import Mathlib

/-!
# Verification of the glTF → ozz skeletal-animation importer

Shallow embedding of `src/animation/offline/gltf/gltf2ozz.cc` (the
`GltfImporter` class).  C++ `float`/`double` arithmetic is modelled with exact
rationals (`ℚ`); the claims checked here are structural (key counts, key
layout, name assignment, control flow), none of them hinges on rounding.
Raw buffer pointers are modelled as lists of rationals; an out-of-range C++
pointer read (undefined behaviour) is modelled as reading the default value
`0`, and each such spot is noted in a comment.
-/

set_option autoImplicit false

namespace Gltf2Ozz

/-- `ozz::math::Float3` (used by translation and scale keys). -/
structure Vec3 where
  x : ℚ
  y : ℚ
  z : ℚ
  deriving DecidableEq, Repr

/-- `ozz::math::Quaternion` (used by rotation keys), stored as (x, y, z, w). -/
structure Vec4 where
  x : ℚ
  y : ℚ
  z : ℚ
  w : ℚ
  deriving DecidableEq, Repr

instance : Zero Vec3 := ⟨⟨0, 0, 0⟩⟩
instance : Zero Vec4 := ⟨⟨0, 0, 0, 0⟩⟩

instance : Add Vec3 := ⟨fun a b => ⟨a.x + b.x, a.y + b.y, a.z + b.z⟩⟩
instance : Add Vec4 := ⟨fun a b => ⟨a.x + b.x, a.y + b.y, a.z + b.z, a.w + b.w⟩⟩

/-- Component-wise scaling `v * s`, as the C++ math types write it. -/
instance : HMul Vec3 ℚ Vec3 := ⟨fun v s => ⟨v.x * s, v.y * s, v.z * s⟩⟩

instance : HMul Vec4 ℚ Vec4 := ⟨fun v s => ⟨v.x * s, v.y * s, v.z * s, v.w * s⟩⟩

@[simp] theorem vec3_zero_def : (0 : Vec3) = ⟨0, 0, 0⟩ := rfl
@[simp] theorem vec4_zero_def : (0 : Vec4) = ⟨0, 0, 0, 0⟩ := rfl

@[simp] theorem vec3_add_mk (a b c e f g : ℚ) :
    (⟨a, b, c⟩ + ⟨e, f, g⟩ : Vec3) = ⟨a + e, b + f, c + g⟩ := rfl

@[simp] theorem vec4_add_mk (a b c d e f g h : ℚ) :
    (⟨a, b, c, d⟩ + ⟨e, f, g, h⟩ : Vec4) = ⟨a + e, b + f, c + g, d + h⟩ := rfl

@[simp] theorem vec3_hmul_mk (a b c s : ℚ) :
    ((⟨a, b, c⟩ : Vec3) * s) = (⟨a * s, b * s, c * s⟩ : Vec3) := rfl

@[simp] theorem vec4_hmul_mk (a b c d s : ℚ) :
    ((⟨a, b, c, d⟩ : Vec4) * s) = (⟨a * s, b * s, c * s, d * s⟩ : Vec4) := rfl

/-- A destination keyframe (`RawAnimation::TranslationKey` / `RotationKey` /
`ScaleKey`): a timestamp and a value. -/
structure Key (V : Type) where
  time : ℚ
  value : V
  deriving DecidableEq, Repr

/-- `RawAnimation::JointTrack`: the three key sequences of one joint. -/
structure JointTrack where
  translations : List (Key Vec3)
  rotations : List (Key Vec4)
  scales : List (Key Vec3)
  deriving DecidableEq, Repr

/-- A freshly value-initialized `JointTrack` (what `tracks.resize` inserts). -/
def emptyTrack : JointTrack := ⟨[], [], []⟩

/-! ## The read-only glTF scene model (tinygltf structures, the fields used) -/

/-- `tinygltf::Node` — the fields `gltf2ozz.cc` reads.  `translation`,
`rotation` and `scale` are empty-or-full vectors in tinygltf; modelled as
`Option`. -/
structure Node where
  name : String
  translation : Option Vec3
  rotation : Option Vec4
  scale : Option Vec3
  deriving DecidableEq, Repr

def defaultNode : Node := ⟨"", none, none, none⟩

/-- `tinygltf::Accessor` — `count`, the declared `maxValues`, and the raw
buffer it points at.  `elementSize` stands for
`GetComponentSizeInBytes(componentType) * GetTypeSizeInBytes(type)` as
computed by `BufferView`, and `floats` is the pointed-at buffer contents
reinterpreted as a stream of floats. -/
structure Accessor where
  count : ℕ
  maxValues : List ℚ
  elementSize : ℕ
  floats : List ℚ
  deriving DecidableEq, Repr

def defaultAccessor : Accessor := ⟨0, [], 0, []⟩

/-- `tinygltf::AnimationSampler`. -/
structure Sampler where
  input : ℕ
  output : ℕ
  interpolation : String
  deriving DecidableEq, Repr

def defaultSampler : Sampler := ⟨0, 0, ""⟩

/-- `tinygltf::AnimationChannel`; `target_node` is `-1` when absent. -/
structure Channel where
  target_node : Int
  target_path : String
  sampler : ℕ
  deriving DecidableEq, Repr

/-- `tinygltf::Animation`. -/
structure Animation where
  name : String
  channels : List Channel
  samplers : List Sampler
  deriving DecidableEq, Repr

/-- The slice of `tinygltf::Model` used by the animation importer. -/
structure Model where
  nodes : List Node
  accessors : List Accessor
  animations : List Animation
  deriving DecidableEq, Repr

/-- The output `RawAnimation`: name, duration and per-joint tracks. -/
structure RawAnimation where
  name : String
  duration : ℚ
  tracks : List JointTrack
  deriving DecidableEq, Repr

/-! ## `BufferView<T>`

`BufferView<T>` checks that the accessor's declared element size equals
`sizeof(T)` (4 for `float`, 12 for `Float3`, 16 for `Quaternion`) and returns
`nullptr` on mismatch, otherwise a typed pointer into the buffer.  The typed
views are modelled by chunking the float stream. -/

def chunk3 : List ℚ → List Vec3
  | a :: b :: c :: rest => ⟨a, b, c⟩ :: chunk3 rest
  | _ => []

def chunk4 : List ℚ → List Vec4
  | a :: b :: c :: d :: rest => ⟨a, b, c, d⟩ :: chunk4 rest
  | _ => []

def bufferFloat (acc : Accessor) : Option (List ℚ) :=
  if acc.elementSize = 4 then some acc.floats else none

def bufferVec3 (acc : Accessor) : Option (List Vec3) :=
  if acc.elementSize = 12 then some (chunk3 acc.floats) else none

def bufferVec4 (acc : Accessor) : Option (List Vec4) :=
  if acc.elementSize = 16 then some (chunk4 acc.floats) else none

/-! ## The three per-type channel samplers -/

/-- `SampleHermiteSpline`: cubic Hermite basis evaluation, verbatim. -/
def SampleHermiteSpline {V : Type} [Add V] [HMul V ℚ V]
    (t : ℚ) (p0 m0 p1 m1 : V) : V :=
  let t2 := t * t
  let t3 := t2 * t
  let a := 2 * t3 - 3 * t2 + 1
  let b := t3 - 2 * t2 + t
  let c := -2 * t3 + 3 * t2
  let d := t3 - t2
  p0 * a + m0 * b + p1 * c + m1 * d

/-- `SampleLinearChannel`: `keyframes.resize(output.count)` then one
destination key per source sample (`key.time = timestamps[i]`,
`key.value = values[i]`).  The loop runs over `output.count`; reads past the
ends of the C++ arrays (undefined behaviour there) are modelled as `0`. -/
def SampleLinearChannel {V : Type} [Zero V]
    (count : ℕ) (timestamps : List ℚ) (values : List V) : List (Key V) :=
  (List.range count).map fun i => ⟨timestamps.getD i 0, values.getD i 0⟩

/-- The epsilon `1e-6f` used by `SampleStepChannel`, modelled exactly. -/
def stepEps : ℚ := 1 / 1000000

/-- `SampleStepChannel`: `keyframes.resize(output.count * 2)`, then for each
source sample `i` the loop writes key `2*i` (source time/value) and, when
`i < count - 1`, key `2*i + 1` (held value at `timestamps[i+1] - 1e-6`).
The very last slot, index `2*count - 1`, is never written by the loop: it
keeps what `resize` value-initialized — a zero `time` and (in C++) an
indeterminate value, modelled by the explicit `vjunk` argument.  The loop
result is expressed as a map over destination indices `j`. -/
def SampleStepChannel {V : Type} [Zero V]
    (count : ℕ) (timestamps : List ℚ) (values : List V) (vjunk : V) :
    List (Key V) :=
  (List.range (2 * count)).map fun j =>
    if j % 2 = 0 then
      ⟨timestamps.getD (j / 2) 0, values.getD (j / 2) 0⟩
    else if j + 1 = 2 * count then
      ⟨0, vjunk⟩
    else
      ⟨timestamps.getD (j / 2 + 1) 0 - stepEps, values.getD (j / 2) 0⟩

/-- The cursor-advance loop of `SampleCubicSplineChannel`, phrased
structurally on the loop's remaining iteration budget: the guard
`currentKey < numKeyframes - 1` holds exactly when the budget
`numKeyframes - 1 - c` is positive, and each `currentKey++` shrinks the
budget by one (`advanceCursor_eq` below re-states the C++ loop equation
verbatim).  A budget of `0` means the guard's second conjunct is false and
the loop exits at once. -/
def advanceCursorGo (timestamps : List ℚ) (time : ℚ) : ℕ → ℕ → ℕ
  | 0, c => c
  | budget + 1, c =>
    if timestamps.getD c 0 > time then advanceCursorGo timestamps time budget (c + 1)
    else c

/-- `while (timestamps[currentKey] > time && currentKey < numKeyframes - 1)
currentKey++;` — the segment-locating cursor of `SampleCubicSplineChannel`.
(`numKeyframes` here is the source sample count `output.count / 3`; with
`count < 3` the C++ `size_t` subtraction `numKeyframes - 1` would wrap, the
claims below use `count ≥ 6`.) -/
def advanceCursor (timestamps : List ℚ) (numKeyframes : ℕ) (time : ℚ)
    (c : ℕ) : ℕ :=
  advanceCursorGo timestamps time (numKeyframes - 1 - c) c

/-- `advanceCursor` satisfies the C++ loop equation literally. -/
theorem advanceCursor_eq (timestamps : List ℚ) (numKeyframes : ℕ) (time : ℚ)
    (c : ℕ) :
    advanceCursor timestamps numKeyframes time c =
      if timestamps.getD c 0 > time ∧ c < numKeyframes - 1 then
        advanceCursor timestamps numKeyframes time (c + 1)
      else c := by
  unfold advanceCursor
  rcases h : numKeyframes - 1 - c with - | budget
  · have : ¬ c < numKeyframes - 1 := by omega
    simp [advanceCursorGo, this]
  · have hc : c < numKeyframes - 1 := by omega
    have hb : numKeyframes - 1 - (c + 1) = budget := by omega
    by_cases hgt : timestamps.getD c 0 > time
    · simp only [advanceCursorGo, hb]
      rw [if_pos hgt, if_pos ⟨hgt, hc⟩]
    · simp only [advanceCursorGo]
      rw [if_neg hgt, if_neg (fun hh => hgt hh.1)]

/-- The body of the destination-key loop of `SampleCubicSplineChannel`:
`rem` destination keys remain to be produced, `i` is the current destination
index, `c` the persistent segment cursor.  Reads `timestamps[currentKey + 1]`
and the four control values of the bracketing segment, scales the tangents by
the segment duration and evaluates the Hermite basis.  As in the C++, the
cursor value carries over from one destination key to the next. -/
def cubicLoop {V : Type} [Zero V] [Add V] [HMul V ℚ V]
    (timestamps : List ℚ) (values : List V) (numKeyframes : ℕ)
    (samplingRate : ℚ) : ℕ → ℕ → ℕ → List (Key V)
  | 0, _, _ => []
  | rem + 1, i, c =>
    let time := (i : ℚ) / samplingRate
    let c1 := advanceCursor timestamps numKeyframes time c
    let currentTime := timestamps.getD c1 0
    let nextTime := timestamps.getD (c1 + 1) 0
    let t := (time - currentTime) / (nextTime - currentTime)
    let p0 := values.getD (c1 * 3 + 1) 0
    let m0 := (values.getD (c1 * 3 + 2) 0) * (nextTime - currentTime)
    let p1 := values.getD ((c1 + 1) * 3 + 1) 0
    let m1 := (values.getD ((c1 + 1) * 3) 0) * (nextTime - currentTime)
    ⟨time, SampleHermiteSpline t p0 m0 p1 m1⟩ ::
      cubicLoop timestamps values numKeyframes samplingRate rem (i + 1) c1

/-- `SampleCubicSplineChannel`: the source sample count is `output.count / 3`
(the output accessor holds in-tangent/value/out-tangent triples), the
destination key count is `floor(duration * samplingRate) + 1`, and each
destination key `i` sits at time `i / samplingRate`. -/
def SampleCubicSplineChannel {V : Type} [Zero V] [Add V] [HMul V ℚ V]
    (count : ℕ) (timestamps : List ℚ) (values : List V)
    (samplingRate duration : ℚ) : List (Key V) :=
  cubicLoop timestamps values (count / 3) samplingRate
    ((⌊duration * samplingRate⌋).toNat + 1) 0 0

/-! ## `SampleAnimationChannel`

Dispatch on (interpolation mode, target path).  The C++ function takes the
animation duration and the joint track by reference; here it returns the
updated pair together with the success flag.  The duration update (running
maximum of the input accessor's declared `maxValues[0]`) happens before any
failure can occur, so the updated duration is returned on failure too.

The count checks (`assert(input.count == output.count)` for LINEAR/STEP and
`assert(input.count * 3 == output.count)` for CUBICSPLINE), like
`assert(input.maxValues.size() == 1)` and the accessor-type asserts, are
debug-build `assert`s: they abort the process in a debug build and are
compiled out in release builds.  They are no-ops here (release semantics);
nothing is signalled to the caller. -/
def SampleAnimationChannel (model : Model) (sampler : Sampler)
    (targetPath : String) (outDuration : ℚ) (track : JointTrack)
    (samplingRate : ℚ) : Bool × ℚ × JointTrack :=
  let input := model.accessors.getD sampler.input defaultAccessor
  -- the max[0] property of the input accessor is the animation duration
  let duration := input.maxValues.getD 0 0
  let outDuration := if duration > outDuration then duration else outDuration
  let output := model.accessors.getD sampler.output defaultAccessor
  match bufferFloat input with
  | none => (false, outDuration, track)
  | some timestamps =>
    if sampler.interpolation = "" ∨ sampler.interpolation = "LINEAR" then
      if targetPath = "translation" then
        match bufferVec3 output with
        | none => (false, outDuration, track)
        | some values =>
          (true, outDuration,
            { track with
              translations := SampleLinearChannel output.count timestamps values })
      else if targetPath = "rotation" then
        match bufferVec4 output with
        | none => (false, outDuration, track)
        | some values =>
          (true, outDuration,
            { track with
              rotations := SampleLinearChannel output.count timestamps values })
      else if targetPath = "scale" then
        match bufferVec3 output with
        | none => (false, outDuration, track)
        | some values =>
          (true, outDuration,
            { track with
              scales := SampleLinearChannel output.count timestamps values })
      else (false, outDuration, track)
    else if sampler.interpolation = "STEP" then
      if targetPath = "translation" then
        match bufferVec3 output with
        | none => (false, outDuration, track)
        | some values =>
          (true, outDuration,
            { track with
              translations := SampleStepChannel output.count timestamps values 0 })
      else if targetPath = "rotation" then
        match bufferVec4 output with
        | none => (false, outDuration, track)
        | some values =>
          (true, outDuration,
            { track with
              rotations := SampleStepChannel output.count timestamps values 0 })
      else if targetPath = "scale" then
        match bufferVec3 output with
        | none => (false, outDuration, track)
        | some values =>
          (true, outDuration,
            { track with
              scales := SampleStepChannel output.count timestamps values 0 })
      else (false, outDuration, track)
    else if sampler.interpolation = "CUBICSPLINE" then
      if targetPath = "translation" then
        match bufferVec3 output with
        | none => (false, outDuration, track)
        | some values =>
          (true, outDuration,
            { track with
              translations :=
                SampleCubicSplineChannel output.count timestamps values
                  samplingRate duration })
      else if targetPath = "rotation" then
        match bufferVec4 output with
        | none => (false, outDuration, track)
        | some values =>
          -- After sampling, the code normalizes every resulting quaternion
          -- with `math::Normalize` (external ozz math, not under src/):
          -- it rescales the value by the inverse of its length.  The keys
          -- are stored here pre-normalization; the rescaling is reasoned
          -- about through `normalizedNormSq` below.
          (true, outDuration,
            { track with
              rotations :=
                SampleCubicSplineChannel output.count timestamps values
                  samplingRate duration })
      else if targetPath = "scale" then
        match bufferVec3 output with
        | none => (false, outDuration, track)
        | some values =>
          (true, outDuration,
            { track with
              scales :=
                SampleCubicSplineChannel output.count timestamps values
                  samplingRate duration })
      else (false, outDuration, track)
    else (false, outDuration, track)

/-- Squared magnitude of a quaternion value. -/
def vnormSq (v : Vec4) : ℚ := v.x * v.x + v.y * v.y + v.z * v.z + v.w * v.w

/-- Modelled from the spec: `math::Normalize` (external ozz math, only its
call site is under src/) rescales a quaternion by the inverse of its length,
so the normalized value's squared magnitude is `vnormSq v / vnormSq v` —
`1` exactly when `vnormSq v ≠ 0`, and `0` (nothing unit-length can come out
of the zero quaternion, whatever the scale factor) when `vnormSq v = 0`. -/
def normalizedNormSq (v : Vec4) : ℚ := vnormSq v / vnormSq v

/-! ## Bind-pose padding -/

/-- `CreateTranslationBindPoseKey`: time 0, `Float3::zero()` unless the node
carries a translation. -/
def CreateTranslationBindPoseKey (node : Node) : Key Vec3 :=
  ⟨0, node.translation.getD ⟨0, 0, 0⟩⟩

/-- `CreateRotationBindPoseKey`: time 0, `Quaternion::identity()` (0,0,0,1)
unless the node carries a rotation. -/
def CreateRotationBindPoseKey (node : Node) : Key Vec4 :=
  ⟨0, node.rotation.getD ⟨0, 0, 0, 1⟩⟩

/-- `CreateScaleBindPoseKey`: time 0, `Float3::one()` unless the node carries
a scale. -/
def CreateScaleBindPoseKey (node : Node) : Key Vec3 :=
  ⟨0, node.scale.getD ⟨1, 1, 1⟩⟩

/-- The padding step of `Import` (animation): any of the three key sequences
still empty after sampling gets a single bind-pose key pushed. -/
def padTrack (node : Node) (track : JointTrack) : JointTrack :=
  { translations :=
      if track.translations.isEmpty then [CreateTranslationBindPoseKey node]
      else track.translations
    rotations :=
      if track.rotations.isEmpty then [CreateRotationBindPoseKey node]
      else track.rotations
    scales :=
      if track.scales.isEmpty then [CreateScaleBindPoseKey node]
      else track.scales }

/-- `FindNodeByName`: scan node indices in order, return the first node whose
assigned name (in the `m_nodeNames` registry built during skeleton import)
matches. -/
def findNodeByName (nodes : List Node) (nodeNames : List (ℕ × String))
    (name : String) : Option Node :=
  (List.range nodes.length).findSome? fun i =>
    match nodeNames.lookup i with
    | none => none
    | some n => if n = name then some (nodes.getD i defaultNode) else none

/-! ## `Import` (animation) -/

/-- The `channelsPerJoint` map of `Import` (animation): channels whose
`target_node` is `-1` are skipped, the rest are bucketed under the *raw*
name of the target node (`m_model.nodes[channel.target_node].name`).  The
bucket of a given name, in insertion order, is exactly the sublist of
channels whose target's raw name matches. -/
def channelsPerJoint (nodes : List Node) (channels : List Channel)
    (name : String) : List Channel :=
  channels.filter fun ch =>
    ch.target_node ≠ -1 ∧
      (nodes.getD ch.target_node.toNat defaultNode).name = name

/-- The per-joint channel loop: sample each channel of the joint in turn,
threading the animation duration and the joint track; a failing channel
aborts with the duration updates already made (the C++ writes them through
references before returning `false`). -/
def sampleChannels (model : Model) (anim : Animation) (samplingRate : ℚ) :
    List Channel → ℚ → JointTrack → Bool × ℚ × JointTrack
  | [], d, track => (true, d, track)
  | ch :: rest, d, track =>
    let sampler := anim.samplers.getD ch.sampler defaultSampler
    match SampleAnimationChannel model sampler ch.target_path d track
        samplingRate with
    | (true, d1, track1) => sampleChannels model anim samplingRate rest d1 track1
    | (false, d1, track1) => (false, d1, track1)

/-- `resize` on the output `tracks` vector: keep the existing prefix, append
value-initialized (empty) tracks up to the skeleton's joint count. -/
def resizeTracks (tracks : List JointTrack) (n : ℕ) : List JointTrack :=
  tracks.take n ++ List.replicate (n - tracks.length) emptyTrack

/-- The per-joint loop of `Import` (animation), over the (index, joint name)
pairs of the skeleton.  Writes into `animation.tracks[i]` in place, so a
failure leaves the tracks already written (and the partial duration)
behind.  After a joint's channels all sample successfully, empty key
sequences are padded with bind-pose keys looked up via `FindNodeByName`
(whose `nullptr` case is guarded by an `assert` in the C++ and modelled with
a default node). -/
def importJoints (model : Model) (anim : Animation)
    (nodeNames : List (ℕ × String)) (samplingRate : ℚ) :
    List (ℕ × String) → RawAnimation → Bool × RawAnimation
  | [], animation => (true, animation)
  | (i, jointName) :: rest, animation =>
    let channels := channelsPerJoint model.nodes anim.channels jointName
    match sampleChannels model anim samplingRate channels animation.duration
        (animation.tracks.getD i emptyTrack) with
    | (ok, d1, track1) =>
      let animation1 :=
        { animation with duration := d1, tracks := animation.tracks.set i track1 }
      if ok then
        let node := (findNodeByName model.nodes nodeNames jointName).getD
          defaultNode
        importJoints model anim nodeNames samplingRate rest
          { animation1 with
            tracks := animation1.tracks.set i (padTrack node track1) }
      else
        (false, animation1)

/-- `Import(const char* animationName, const Skeleton&, float samplingRate,
RawAnimation*)`.  `jointNames` and `nodeNames` are the joint names of the
already-built skeleton and the node-index → assigned-name registry.
`validate` stands for `RawAnimation::Validate` — modelled from the spec
(destination-format validation, external to this file) as an opaque-to-us
boolean check supplied as a parameter.  The returned pair is the success
flag and the final state of the caller-supplied output animation. -/
def importAnimation (model : Model) (nodeNames : List (ℕ × String))
    (jointNames : List String) (samplingRate0 : ℚ) (animationName : String)
    (validate : RawAnimation → Bool) (animation : RawAnimation) :
    Bool × RawAnimation :=
  let samplingRate := if samplingRate0 = 0 then 60 else samplingRate0
  match model.animations.find? (fun a => a.name = animationName) with
  | none => (false, animation)
  | some gltfAnimation =>
    let animation :=
      { animation with
        name := gltfAnimation.name
        duration := 0
        tracks := resizeTracks animation.tracks jointNames.length }
    match importJoints model gltfAnimation nodeNames samplingRate
        ((List.range jointNames.length).zip jointNames) animation with
    | (false, animation1) => (false, animation1)
    | (true, animation1) =>
      if validate animation1 then (true, animation1) else (false, animation1)

/-! ## `CreateJointName` and the joint-name registry

`CreateJointName` keeps a *function-local `static`* map `existingNames` from
assigned names to node indices, which persists across `Import` calls for the
lifetime of the process.  The registry is modelled as an association list
(`insert` only adds a binding when the key is absent, like
`unordered_map::insert`). -/

abbrev NameRegistry := List (String × ℕ)

/-- One `CreateJointName(nodeIndex)` call: synthesize `"gltf_node_<index>"`
for an empty node name, append `"_<index>"` when the name is already in the
registry (a single pass — the suffixed name is not checked again), then
insert-if-absent and return. -/
def CreateJointName (nodes : List Node) (reg : NameRegistry) (nodeIndex : ℕ) :
    String × NameRegistry :=
  let node := nodes.getD nodeIndex defaultNode
  let name0 :=
    if node.name.length = 0 then "gltf_node_" ++ toString nodeIndex
    else node.name
  let name :=
    if (reg.lookup name0).isSome then name0 ++ "_" ++ toString nodeIndex
    else name0
  let reg1 := if (reg.lookup name).isSome then reg else (name, nodeIndex) :: reg
  (name, reg1)

/-- The sequence of `CreateJointName` calls a skeleton build makes: one call
per visited node, in depth-first preorder over the discovered roots
(`Import(RawSkeleton*)` / `ImportChildren`); `order` is that visit
sequence.  Returns the assigned names in visit order and the final
registry. -/
def assignNames (nodes : List Node) : List ℕ → NameRegistry →
    List String × NameRegistry
  | [], reg => ([], reg)
  | i :: rest, reg =>
    let (name, reg1) := CreateJointName nodes reg i
    let (names, reg2) := assignNames nodes rest reg1
    (name :: names, reg2)

/-! ## Spec-side definitions for refinement comparison -/

/-- The declared maximum time of a channel's input accessor
(`input.maxValues[0]`), the quantity `SampleAnimationChannel` folds into the
animation duration. -/
def channelDeclaredMax (model : Model) (anim : Animation) (ch : Channel) : ℚ :=
  (model.accessors.getD (anim.samplers.getD ch.sampler defaultSampler).input
      defaultAccessor).maxValues.getD 0 0

/-- Follows the spec's words: “Animation duration equals the maximum, over
all its channels, of each channel's declared input maximum time.”  (Running
maximum starting from the initial duration 0, over *every* channel of the
animation.) -/
def specDeclaredMaxTime (model : Model) (anim : Animation) : ℚ :=
  anim.channels.foldl
    (fun d ch =>
      let dur := channelDeclaredMax model anim ch
      if dur > d then dur else d)
    0

/-- What the code actually accumulates: the running maximum over only the
channels that get bucketed to some skeleton joint name (in the per-joint
loop order). -/
def sampledChannelsMaxTime (model : Model) (anim : Animation)
    (jointNames : List String) : ℚ :=
  jointNames.foldl
    (fun d jointName =>
      (channelsPerJoint model.nodes anim.channels jointName).foldl
        (fun d ch =>
          let dur := channelDeclaredMax model anim ch
          if dur > d then dur else d)
        d)
    0

/-! ## Concrete scenarios used as counterexamples and witnesses -/

/-- A scene with a single unnamed node (the skeleton build names its joint
`"gltf_node_0"`). -/
def unnamedNode : List Node := [⟨"", none, none, none⟩]

/-- A channel targeting node `0`. -/
def chanToNode0 : Channel := ⟨0, "translation", 0⟩

/-- An animation whose only channel targets node `1` (`"B"`), which is not a
skeleton joint; its input accessor declares a maximum time of `2`. -/
def strayAnim : Animation := ⟨"walk", [⟨1, "translation", 0⟩], [⟨0, 0, ""⟩]⟩

def strayChannelModel : Model :=
  { nodes := [⟨"A", some ⟨7, 8, 9⟩, none, none⟩, ⟨"B", none, none, none⟩]
    accessors := [⟨2, [2], 4, [0, 2]⟩]
    animations := [strayAnim] }

/-- A model whose animation `"walk"` has a channel with an unrecognized
interpolation mode `"BAD"`; the channel's input accessor declares a maximum
time of `5`. -/
def badInterpModel : Model :=
  { nodes := [⟨"A", none, none, none⟩]
    accessors := [⟨2, [5], 4, [0, 1]⟩]
    animations := [⟨"walk", [⟨0, "translation", 0⟩], [⟨0, 0, "BAD"⟩]⟩] }

/-- Three nodes named `"A"`, `"A_2"`, `"A"`: disambiguating the third
(`"A" → "A_2"`) collides with the second's literal name. -/
def collidingNodes : List Node :=
  [⟨"A", none, none, none⟩, ⟨"A_2", none, none, none⟩, ⟨"A", none, none, none⟩]

/-- CUBICSPLINE output for two source samples (triples in-tangent, value,
out-tangent): both stored values are unit quaternions, antipodal to each
other, with zero tangents — perfectly legal glTF rotation data. -/
def antipodalValues : List Vec4 :=
  [⟨0, 0, 0, 0⟩, ⟨1, 0, 0, 0⟩, ⟨0, 0, 0, 0⟩,
   ⟨0, 0, 0, 0⟩, ⟨-1, 0, 0, 0⟩, ⟨0, 0, 0, 0⟩]

/-- A LINEAR channel whose input accessor has `count = 2` but whose output
accessor has `count = 3` (both with well-formed element sizes). -/
def mismatchModel : Model :=
  { nodes := []
    accessors := [⟨2, [1], 4, [0, 1]⟩, ⟨3, [], 12, [1, 1, 1, 2, 2, 2, 3, 3, 3]⟩]
    animations := [] }

/-! # Theorems for the claims -/

/-- C1: `SampleStepChannel` resizes the destination to `output.count * 2`
(not `2n - 1`) and its loop never writes the last slot.  On the failing input
(a STEP channel with `n = 2` source samples at timestamps `[0, 1]`), sampling
yields `4` keys, the first `2n - 1 = 3` exactly as the claim describes, plus
a stray trailing key whose time is the value-initialized `0` (out of order)
and whose value is whatever `resize` left there (`vjunk`).  The claim's
`2n - 1` count — which is also what the held-value encoding and the code's
own downstream time-ordering validation require — does not hold. -/
theorem step_sampling_emits_2n_keys_with_stray_last :
    SampleStepChannel 2 [0, 1] [(⟨1, 2, 3⟩ : Vec3), ⟨4, 5, 6⟩] ⟨9, 9, 9⟩ =
      [⟨0, ⟨1, 2, 3⟩⟩, ⟨1 - stepEps, ⟨1, 2, 3⟩⟩, ⟨1, ⟨4, 5, 6⟩⟩,
        ⟨0, ⟨9, 9, 9⟩⟩] ∧
    (SampleStepChannel 2 [0, 1] [(⟨1, 2, 3⟩ : Vec3), ⟨4, 5, 6⟩]
        ⟨9, 9, 9⟩).length = 4 ∧
    2 * 2 - 1 = 3 := by
  norm_num [SampleStepChannel, List.range_succ]

/-- C2: the guard `currentKey < numKeyframes - 1` only bounds the cursor by
the *last* source index, not the second-to-last.  On a CUBICSPLINE channel
with `2` source samples whose timestamps `[5, 6]` start after the first
destination time `0 / samplingRate = 0`, the cursor advances to index
`1 = numKeyframes - 1`, exceeding the second-to-last index `0`; the code
then reads `timestamps[currentKey + 1]` at index `2`, one past the end of
the source array (and `values[(currentKey + 1) * 3 + 1]` past the output
array). -/
theorem cubic_cursor_reaches_last_sample :
    advanceCursor [5, 6] 2 0 0 = 1 ∧
    2 - 2 < advanceCursor [5, 6] 2 0 0 ∧
    advanceCursor [5, 6] 2 0 0 + 1 = List.length [(5 : ℚ), 6] := by
  decide

/-- C3, counterexample: a channel targeting an unnamed node is never
assigned to that node's joint track.  The skeleton build names the joint
`"gltf_node_0"`, but the channel map is keyed by the node's raw (empty)
name, so the bucket looked up for the joint is empty even though the
channel has a valid target node. -/
theorem channel_lost_for_renamed_joint :
    (assignNames unnamedNode [0] []).1 = ["gltf_node_0"] ∧
    channelsPerJoint unnamedNode [chanToNode0] "gltf_node_0" = [] ∧
    chanToNode0.target_node ≠ -1 := by
  decide

/-- C3, amended: channels are bucketed by the target node's *raw* glTF name
(channels with `target_node = -1` are dropped); a channel reaches the track
of a joint exactly when the joint's skeleton name equals that raw name, so
channels whose target was renamed during skeleton build are silently
dropped. -/
theorem channels_bucketed_by_raw_node_name (nodes : List Node)
    (channels : List Channel) (name : String) (ch : Channel) :
    (ch ∈ channelsPerJoint nodes channels name ↔
      ch ∈ channels ∧ ch.target_node ≠ -1 ∧
        (nodes.getD ch.target_node.toNat defaultNode).name = name) ∧
    (ch.target_node = -1 → ch ∉ channelsPerJoint nodes channels name) ∧
    ((nodes.getD ch.target_node.toNat defaultNode).name ≠ name →
      ch ∉ channelsPerJoint nodes channels name) := by
  refine ⟨?_, ?_, ?_⟩
  · simp [channelsPerJoint, List.mem_filter, and_assoc]
  · intro h hmem
    simp [channelsPerJoint, List.mem_filter, h] at hmem
  · intro h hmem
    simp [channelsPerJoint, List.mem_filter] at hmem
    exact h (by simpa [List.getD] using hmem.2.2)

theorem channels_bucketed_by_raw_node_name_witness :
    chanToNode0 ∈ channelsPerJoint unnamedNode [chanToNode0] "" ∧
    chanToNode0 ∉ channelsPerJoint unnamedNode [chanToNode0] "gltf_node_0" :=
  ⟨(channels_bucketed_by_raw_node_name unnamedNode [chanToNode0] ""
        chanToNode0).1.mpr ⟨by decide, by decide, by decide⟩,
   (channels_bucketed_by_raw_node_name unnamedNode [chanToNode0] "gltf_node_0"
        chanToNode0).2.2 (by decide)⟩

/-- C4, counterexample: the animation `"walk"` imports successfully, but its
only channel targets node `"B"`, which is not a skeleton joint, so the
channel is never sampled and the returned duration stays `0` — while the
maximum declared input time over *all* the animation's channels is `2`. -/
theorem duration_ignores_unsampled_channel :
    importAnimation strayChannelModel [(0, "A")] ["A"] 60 "walk"
        (fun _ => true) ⟨"", 0, []⟩ =
      (true, ⟨"walk", 0,
        [⟨[⟨0, ⟨7, 8, 9⟩⟩], [⟨0, ⟨0, 0, 0, 1⟩⟩], [⟨0, ⟨1, 1, 1⟩⟩]⟩]⟩) ∧
    specDeclaredMaxTime strayChannelModel strayAnim = 2 ∧ (0 : ℚ) ≠ 2 := by
  decide

/-- C5, counterexample: a failure *after* the animation is found (here an
unrecognized interpolation mode) returns `false` with the output animation
already partially written: its name is `"walk"`, its duration carries the
failing channel's declared maximum `5`, and its track list has been resized
— not the untouched input `⟨"", 0, []⟩`. -/
theorem failed_import_leaves_partial_output :
    importAnimation badInterpModel [(0, "A")] ["A"] 60 "walk"
        (fun _ => true) ⟨"", 0, []⟩ =
      (false, ⟨"walk", 5, [emptyTrack]⟩) ∧
    (⟨"walk", 5, [emptyTrack]⟩ : RawAnimation) ≠ ⟨"", 0, []⟩ := by
  decide

/-- C5, amended: only the not-found failure is atomic — when the requested
name is not among the model's animations, `Import` returns `false` before
writing anything, so the caller-supplied output is returned untouched.
(Failures after that point leave partial writes, see the counterexample.) -/
theorem not_found_import_leaves_output_untouched (model : Model)
    (nodeNames : List (ℕ × String)) (jointNames : List String)
    (samplingRate0 : ℚ) (animationName : String)
    (validate : RawAnimation → Bool) (animation : RawAnimation)
    (h : model.animations.find? (fun a => a.name = animationName) = none) :
    importAnimation model nodeNames jointNames samplingRate0 animationName
        validate animation = (false, animation) := by
  unfold importAnimation
  rw [h]

theorem not_found_import_leaves_output_untouched_witness :
    importAnimation badInterpModel [(0, "A")] ["A"] 60 "run"
        (fun _ => true) ⟨"", 0, []⟩ = (false, ⟨"", 0, []⟩) :=
  not_found_import_leaves_output_untouched badInterpModel [(0, "A")] ["A"]
    60 "run" (fun _ => true) ⟨"", 0, []⟩ (by decide)

/-- C6, counterexample: on nodes named `"A"`, `"A_2"`, `"A"` (visited in
that order with a fresh registry) the single-pass disambiguation renames
the third joint to `"A_2"`, which collides with the second joint's literal
name: two joints of the same build share a name. -/
theorem disambiguated_name_still_collides :
    (assignNames collidingNodes [0, 1, 2] []).1 = ["A", "A_2", "A_2"] ∧
    ¬ (assignNames collidingNodes [0, 1, 2] []).1.Nodup := by
  decide

/-- C7, counterexample: sampling a CUBICSPLINE rotation channel over two
unit quaternions `(1,0,0,0)` and `(-1,0,0,0)` (antipodal — the same
rotation, legal glTF data) with zero tangents at sampling rate `2` over
duration `1` produces the raw key value `(0,0,0,0)` at the middle
destination key.  The zero quaternion has squared magnitude `0`, and no
rescaling of it (in particular not `math::Normalize`, which scales by the
inverse length) can have unit magnitude, so not *every* resulting rotation
key is unit-length. -/
theorem cubic_rotation_key_can_be_zero :
    SampleCubicSplineChannel 6 [0, 1] antipodalValues 2 1 =
      [⟨0, ⟨1, 0, 0, 0⟩⟩, ⟨1 / 2, ⟨0, 0, 0, 0⟩⟩, ⟨1, ⟨-1, 0, 0, 0⟩⟩] ∧
    vnormSq ⟨1, 0, 0, 0⟩ = 1 ∧ vnormSq ⟨-1, 0, 0, 0⟩ = 1 ∧
    vnormSq ⟨0, 0, 0, 0⟩ = 0 ∧
    normalizedNormSq ⟨0, 0, 0, 0⟩ = 0 ∧ (0 : ℚ) ≠ 1 := by
  norm_num [SampleCubicSplineChannel, cubicLoop, advanceCursor,
    advanceCursorGo, antipodalValues, SampleHermiteSpline, vnormSq,
    normalizedNormSq]

/-- C9, counterexample: a LINEAR channel whose input accessor count (`2`)
differs from its output accessor count (`3`) does *not* fail the import:
the count check is a debug-only `assert`, so `SampleAnimationChannel`
reports success (and emits keys driven by the output count). -/
theorem count_mismatch_not_signalled :
    (SampleAnimationChannel mismatchModel ⟨0, 1, "LINEAR"⟩ "translation" 0
        emptyTrack 60).1 = true ∧
    (mismatchModel.accessors.getD 0 defaultAccessor).count ≠
      (mismatchModel.accessors.getD 1 defaultAccessor).count := by
  decide

/-! ## Duration threading lemmas (shared) -/

/-- `SampleAnimationChannel` always returns the running maximum of the input
accessor's declared `maxValues[0]` as the new duration — the update happens
before any failure point, on every branch. -/
theorem sampleAnimationChannel_duration (model : Model) (sampler : Sampler)
    (targetPath : String) (d : ℚ) (track : JointTrack) (rate : ℚ) :
    (SampleAnimationChannel model sampler targetPath d track rate).2.1 =
      (if (model.accessors.getD sampler.input defaultAccessor).maxValues.getD 0 0 > d
       then (model.accessors.getD sampler.input defaultAccessor).maxValues.getD 0 0
       else d) := by
  simp only [SampleAnimationChannel]
  (repeat' split) <;> rfl

/-- A successful pass over a joint's channel list accumulates exactly the
fold of declared maxima over those channels. -/
theorem sampleChannels_duration (model : Model) (anim : Animation) (rate : ℚ) :
    ∀ (chs : List Channel) (d : ℚ) (track : JointTrack) (d1 : ℚ)
      (track1 : JointTrack),
      sampleChannels model anim rate chs d track = (true, d1, track1) →
      d1 = chs.foldl
        (fun d ch =>
          let dur := channelDeclaredMax model anim ch
          if dur > d then dur else d) d := by
  intro chs
  induction chs with
  | nil =>
    intro d track d1 track1 h
    simp only [sampleChannels, Prod.mk.injEq] at h
    simp [h.2.1]
  | cons ch rest ih =>
    intro d track d1 track1 h
    rw [sampleChannels] at h
    rcases hs : SampleAnimationChannel model
        (anim.samplers.getD ch.sampler defaultSampler) ch.target_path d track
        rate with ⟨flag, d2, track2⟩
    rw [hs] at h
    have hd2 : d2 = if channelDeclaredMax model anim ch > d
        then channelDeclaredMax model anim ch else d := by
      have hq := sampleAnimationChannel_duration model
        (anim.samplers.getD ch.sampler defaultSampler) ch.target_path d track
        rate
      rw [hs] at hq
      exact hq
    cases flag with
    | false => simp at h
    | true =>
      simp only at h
      rw [List.foldl_cons]
      simpa [← hd2] using ih d2 track2 d1 track1 h

/-- A successful per-joint loop accumulates the fold of declared maxima over
the bucketed channels of each joint, in loop order. -/
theorem importJoints_duration (model : Model) (anim : Animation)
    (nodeNames : List (ℕ × String)) (rate : ℚ) :
    ∀ (pairs : List (ℕ × String)) (animation : RawAnimation)
      (anim1 : RawAnimation),
      importJoints model anim nodeNames rate pairs animation = (true, anim1) →
      anim1.duration = pairs.foldl
        (fun d p =>
          (channelsPerJoint model.nodes anim.channels p.2).foldl
            (fun d ch =>
              let dur := channelDeclaredMax model anim ch
              if dur > d then dur else d) d)
        animation.duration := by
  intro pairs
  induction pairs with
  | nil =>
    intro animation anim1 h
    simp only [importJoints, Prod.mk.injEq] at h
    rw [← h.2]
    rfl
  | cons p rest ih =>
    intro animation anim1 h
    rcases p with ⟨i, jointName⟩
    rw [importJoints] at h
    rcases hs : sampleChannels model anim rate
        (channelsPerJoint model.nodes anim.channels jointName)
        animation.duration (animation.tracks.getD i emptyTrack)
      with ⟨flag, d1, track1⟩
    rw [hs] at h
    cases flag with
    | false => simp at h
    | true =>
      simp only [if_pos] at h
      have hd1 := sampleChannels_duration model anim rate _ _ _ _ _ hs
      have := ih _ _ h
      simp [this, ← hd1]

/-- Folding the (index, name) pairs of the per-joint loop with a function
that only looks at the name is folding over the names. -/
theorem foldl_zip_range (f : ℚ → String → ℚ) (names : List String) (init : ℚ) :
    ((List.range names.length).zip names).foldl (fun d p => f d p.2) init =
      names.foldl f init := by
  have hlen : names.length ≤ (List.range names.length).length := by simp
  conv_rhs =>
    rw [← List.map_snd_zip (List.range names.length) names hlen,
      List.foldl_map]

/-- C4, amended: the duration returned by a successful import is the running
maximum (starting from `0`) of the declared input maxima of only those
channels that are bucketed to some skeleton joint name — channels with no
target node, or targeting a node whose raw name is not a joint name (renamed
joints, non-skeleton nodes), do not contribute. -/
theorem import_duration_is_max_over_bucketed_channels (model : Model)
    (nodeNames : List (ℕ × String)) (jointNames : List String)
    (samplingRate0 : ℚ) (animationName : String)
    (validate : RawAnimation → Bool) (animation : RawAnimation)
    (ga : Animation) (anim1 : RawAnimation)
    (hfind : model.animations.find? (fun a => a.name = animationName) = some ga)
    (h : importAnimation model nodeNames jointNames samplingRate0
        animationName validate animation = (true, anim1)) :
    anim1.duration = sampledChannelsMaxTime model ga jointNames := by
  unfold importAnimation at h
  simp only [hfind] at h
  rcases hj : importJoints model ga nodeNames
      (if samplingRate0 = 0 then 60 else samplingRate0)
      ((List.range jointNames.length).zip jointNames)
      { animation with
        name := ga.name
        duration := 0
        tracks := resizeTracks animation.tracks jointNames.length }
    with ⟨flag, anim2⟩
  rw [hj] at h
  cases flag with
  | false => simp at h
  | true =>
    have h21 : anim2 = anim1 := by
      by_cases hv : validate anim2
      · simpa [hv] using h
      · simp [hv] at h
    have hd := importJoints_duration model ga nodeNames
      (if samplingRate0 = 0 then 60 else samplingRate0) _ _ _ hj
    rw [h21] at hd
    rw [hd]
    simp only [sampledChannelsMaxTime]
    exact foldl_zip_range
      (fun d jointName =>
        (channelsPerJoint model.nodes ga.channels jointName).foldl
          (fun d ch =>
            let dur := channelDeclaredMax model ga ch
            if dur > d then dur else d) d)
      jointNames 0

theorem import_duration_is_max_over_bucketed_channels_witness :
    (⟨"walk", 0, [⟨[⟨0, ⟨7, 8, 9⟩⟩], [⟨0, ⟨0, 0, 0, 1⟩⟩], [⟨0, ⟨1, 1, 1⟩⟩]⟩]⟩ :
        RawAnimation).duration =
      sampledChannelsMaxTime strayChannelModel strayAnim ["A"] :=
  import_duration_is_max_over_bucketed_channels strayChannelModel [(0, "A")]
    ["A"] 60 "walk" (fun _ => true) ⟨"", 0, []⟩ strayAnim _ (by decide)
    (by decide)

/-! ## Joint-name lemmas (shared) -/

theorem string_length_zero_iff (s : String) : s.length = 0 ↔ s = "" := by
  constructor
  · intro h
    cases s with
    | mk data =>
      have hd : data.length = 0 := h
      have hnil : data = [] := List.eq_nil_of_length_eq_zero hd
      rw [hnil]
  · intro h
    rw [h]
    rfl

theorem string_ne_empty_of_length_pos (s : String) (h : 0 < s.length) :
    s ≠ "" := by
  intro he
  rw [(string_length_zero_iff s).mpr he] at h
  exact absurd h (by decide)

theorem createJointName_ne_empty (nodes : List Node) (reg : NameRegistry)
    (i : ℕ) : (CreateJointName nodes reg i).1 ≠ "" := by
  have h10 : ("gltf_node_" : String).length = 10 := rfl
  have h1 : ("_" : String).length = 1 := rfl
  simp only [CreateJointName]
  split_ifs with hA hB hB
  all_goals apply string_ne_empty_of_length_pos
  all_goals first
    | (simp only [String.length_append, h10, h1]; omega)
    | omega

theorem assignNames_ne_empty (nodes : List Node) :
    ∀ (order : List ℕ) (reg : NameRegistry) (name : String),
      name ∈ (assignNames nodes order reg).1 → name ≠ "" := by
  intro order
  induction order with
  | nil => intro reg name h; simp only [assignNames, List.not_mem_nil] at h
  | cons i rest ih =>
    intro reg name h
    rcases hc : CreateJointName nodes reg i with ⟨n1, reg1⟩
    rcases hr : assignNames nodes rest reg1 with ⟨names, reg2⟩
    simp only [assignNames, hc, hr, List.mem_cons] at h
    rcases h with h | h
    · have := createJointName_ne_empty nodes reg i
      rw [hc] at this
      rw [h]
      exact this
    · have := ih reg1 name
      rw [hr] at this
      exact this h

theorem assignNames_of_fresh_distinct (nodes : List Node) :
    ∀ (order : List ℕ) (reg : NameRegistry),
      (∀ i ∈ order, (nodes.getD i defaultNode).name ≠ "") →
      (∀ i ∈ order, reg.lookup (nodes.getD i defaultNode).name = none) →
      (order.map fun i => (nodes.getD i defaultNode).name).Nodup →
      (assignNames nodes order reg).1 =
        order.map fun i => (nodes.getD i defaultNode).name := by
  intro order
  induction order with
  | nil => intro reg _ _ _; rfl
  | cons i rest ih =>
    intro reg hne hfresh hnodup
    have hraw : (nodes.getD i defaultNode).name ≠ "" :=
      hne i (List.mem_cons_self i rest)
    have hlen : ¬ (nodes.getD i defaultNode).name.length = 0 := by
      intro h0
      exact hraw ((string_length_zero_iff _).mp h0)
    have hlook : reg.lookup (nodes.getD i defaultNode).name = none :=
      hfresh i (List.mem_cons_self i rest)
    have hc : CreateJointName nodes reg i =
        ((nodes.getD i defaultNode).name,
          ((nodes.getD i defaultNode).name, i) :: reg) := by
      simp only [CreateJointName]
      rw [if_neg hlen, hlook]
      simp only [Option.isSome_none, Bool.false_eq_true, if_false]
      rw [hlook]
      simp only [Option.isSome_none, Bool.false_eq_true, if_false]
    rw [List.map_cons] at hnodup
    have hmap := List.nodup_cons.mp hnodup
    rcases hr : assignNames nodes rest
        (((nodes.getD i defaultNode).name, i) :: reg) with ⟨names, reg2⟩
    have htail : names = rest.map fun j => (nodes.getD j defaultNode).name := by
      have hstep := ih (((nodes.getD i defaultNode).name, i) :: reg)
        (fun j hj => hne j (List.mem_cons_of_mem i hj))
        (fun j hj => by
          have hne2 : ((nodes.getD j defaultNode).name ==
              (nodes.getD i defaultNode).name) = false := by
            rw [beq_eq_false_iff_ne]
            intro hEq
            exact hmap.1 (hEq ▸ List.mem_map_of_mem
              (fun k => (nodes.getD k defaultNode).name) hj)
          simp only [List.lookup, hne2]
          exact hfresh j (List.mem_cons_of_mem i hj))
        hmap.2
      rw [hr] at hstep
      exact hstep
    simp only [assignNames, hc, hr, List.map_cons]
    rw [htail]

/-- C6, amended: every assigned joint name is non-empty, and when the
source nodes' raw names are pairwise distinct and non-empty the assigned
names are exactly the raw names — unique.  In general, however, the
single-pass disambiguation (append `"_<index>"`, no re-check) can assign
the same name to two joints of one build (see the counterexample), and
uniqueness is then only caught by the post-build skeleton validation, which
fails the whole build. -/
theorem joint_names_nonempty_unique_when_raw_distinct :
    (∀ (nodes : List Node) (order : List ℕ) (reg : NameRegistry)
        (name : String),
      name ∈ (assignNames nodes order reg).1 → name ≠ "") ∧
    (∀ (nodes : List Node) (order : List ℕ),
      (∀ i ∈ order, (nodes.getD i defaultNode).name ≠ "") →
      (order.map fun i => (nodes.getD i defaultNode).name).Nodup →
      (assignNames nodes order []).1 =
          (order.map fun i => (nodes.getD i defaultNode).name) ∧
        (assignNames nodes order []).1.Nodup) := by
  constructor
  · exact fun nodes => assignNames_ne_empty nodes
  · intro nodes order hne hnodup
    have h := assignNames_of_fresh_distinct nodes order []
      hne (fun i _ => rfl) hnodup
    exact ⟨h, h ▸ hnodup⟩

/-- Two nodes with distinct non-empty names. -/
def distinctNodes : List Node :=
  [⟨"A", none, none, none⟩, ⟨"B", none, none, none⟩]

theorem joint_names_nonempty_unique_when_raw_distinct_witness :
    (assignNames distinctNodes [0, 1] []).1 =
        ([0, 1].map fun i => (distinctNodes.getD i defaultNode).name) ∧
      (assignNames distinctNodes [0, 1] []).1.Nodup :=
  joint_names_nonempty_unique_when_raw_distinct.2 distinctNodes [0, 1]
    (by decide) (by decide)

/-! ## Cubic-spline structure lemmas (shared) -/

theorem cubicLoop_length (timestamps : List ℚ) (values : List Vec4)
    (numKeyframes : ℕ) (rate : ℚ) :
    ∀ (rem i c : ℕ),
      (cubicLoop timestamps values numKeyframes rate rem i c).length = rem := by
  intro rem
  induction rem with
  | zero => intro i c; rfl
  | succ n ih => intro i c; simp [cubicLoop, ih]

theorem cubicLoop_time (timestamps : List ℚ) (values : List Vec4)
    (numKeyframes : ℕ) (rate : ℚ) :
    ∀ (rem i c j : ℕ), j < rem →
      ((cubicLoop timestamps values numKeyframes rate rem i c).getD j
          ⟨0, 0⟩).time = ((i + j : ℕ) : ℚ) / rate := by
  intro rem
  induction rem with
  | zero => intro i c j hj; omega
  | succ n ih =>
    intro i c j hj
    cases j with
    | zero => simp [cubicLoop]
    | succ k =>
      have hk : k < n := by omega
      have := ih (i + 1)
        (advanceCursor timestamps numKeyframes ((i : ℚ) / rate) c) k hk
      rw [cubicLoop]
      simp only [List.getD_cons_succ]
      rw [this]
      congr 1
      push_cast
      ring

/-- C7, amended: a CUBICSPLINE channel yields `floor(duration*samplingRate)+1`
destination keys, evenly spaced at `1/samplingRate` (key `j` at time
`j/samplingRate`); every rotation key whose raw sampled value is nonzero is
rescaled by `math::Normalize` to unit squared magnitude.  A zero raw value —
reachable from valid unit-quaternion source data, see the counterexample —
has no unit-magnitude rescaling. -/
theorem cubic_sampling_count_spacing_unit_quaternions (count : ℕ)
    (timestamps : List ℚ) (values : List Vec4) (rate duration : ℚ)
    (h : 0 ≤ duration * rate) :
    ((SampleCubicSplineChannel count timestamps values rate
        duration).length : ℤ) = ⌊duration * rate⌋ + 1 ∧
    (∀ j < (SampleCubicSplineChannel count timestamps values rate
        duration).length,
      ((SampleCubicSplineChannel count timestamps values rate
          duration).getD j ⟨0, 0⟩).time = (j : ℚ) / rate) ∧
    (∀ k ∈ SampleCubicSplineChannel count timestamps values rate duration,
      vnormSq k.value ≠ 0 → normalizedNormSq k.value = 1) := by
  refine ⟨?_, ?_, ?_⟩
  · rw [SampleCubicSplineChannel, cubicLoop_length, Nat.cast_add,
      Nat.cast_one, Int.toNat_of_nonneg (Int.floor_nonneg.mpr h)]
  · intro j hj
    rw [SampleCubicSplineChannel, cubicLoop_length] at hj
    rw [SampleCubicSplineChannel]
    have := cubicLoop_time timestamps values (count / 3) rate
      ((⌊duration * rate⌋).toNat + 1) 0 0 j hj
    simpa using this
  · intro k _ hne
    rw [normalizedNormSq]
    exact div_self hne

theorem cubic_sampling_count_spacing_unit_quaternions_witness :
    (0 : ℚ) ≤ 1 * 2 ∧
    (((SampleCubicSplineChannel 6 [0, 1] antipodalValues 2 1).length : ℤ) =
        ⌊(1 : ℚ) * 2⌋ + 1 ∧
      (∀ j < (SampleCubicSplineChannel 6 [0, 1] antipodalValues 2 1).length,
        ((SampleCubicSplineChannel 6 [0, 1] antipodalValues 2 1).getD j
            ⟨0, 0⟩).time = (j : ℚ) / 2) ∧
      (∀ k ∈ SampleCubicSplineChannel 6 [0, 1] antipodalValues 2 1,
        vnormSq k.value ≠ 0 → normalizedNormSq k.value = 1)) :=
  ⟨by norm_num,
   cubic_sampling_count_spacing_unit_quaternions 6 [0, 1] antipodalValues 2 1
     (by norm_num)⟩

/-! ## Padding lemmas (shared) -/

/-- All three key sequences of a track are non-empty. -/
def nonemptyTrack (track : JointTrack) : Prop :=
  track.translations ≠ [] ∧ track.rotations ≠ [] ∧ track.scales ≠ []

theorem padTrack_nonempty (node : Node) (track : JointTrack) :
    nonemptyTrack (padTrack node track) := by
  refine ⟨?_, ?_, ?_⟩ <;> simp only [padTrack] <;> split <;>
    simp_all [List.isEmpty_iff]

theorem list_getD_set_self {α : Type} (l : List α) (i : ℕ) (v e : α)
    (h : i < l.length) : (l.set i v).getD i e = v := by
  simp [List.getD, List.getElem?_set_self, h]

theorem list_getD_set_ne {α : Type} (l : List α) (i j : ℕ) (v e : α)
    (h : i ≠ j) : (l.set i v).getD j e = l.getD j e := by
  simp [List.getD, List.getElem?_set_ne, h]

theorem resizeTracks_length (tracks : List JointTrack) (n : ℕ) :
    (resizeTracks tracks n).length = n := by
  simp [resizeTracks]
  omega

/-- Through a successful per-joint loop, every track at an index the loop
visits — and every track that already had all three sequences non-empty —
ends with all three sequences non-empty (each visit overwrites the slot
with a padded track). -/
theorem importJoints_nonempty (model : Model) (anim : Animation)
    (nodeNames : List (ℕ × String)) (rate : ℚ) :
    ∀ (pairs : List (ℕ × String)) (animation : RawAnimation)
      (anim1 : RawAnimation),
      importJoints model anim nodeNames rate pairs animation = (true, anim1) →
      ∀ j, j < animation.tracks.length →
        (nonemptyTrack (animation.tracks.getD j emptyTrack) ∨
          j ∈ pairs.map Prod.fst) →
        nonemptyTrack (anim1.tracks.getD j emptyTrack) := by
  intro pairs
  induction pairs with
  | nil =>
    intro animation anim1 h j hj hd
    simp only [importJoints, Prod.mk.injEq] at h
    rcases hd with hd | hd
    · rw [← h.2]
      exact hd
    · simp at hd
  | cons p rest ih =>
    intro animation anim1 h j hj hd
    rcases p with ⟨i, jointName⟩
    rw [importJoints] at h
    rcases hs : sampleChannels model anim rate
        (channelsPerJoint model.nodes anim.channels jointName)
        animation.duration (animation.tracks.getD i emptyTrack)
      with ⟨flag, d1, track1⟩
    rw [hs] at h
    cases flag with
    | false => simp at h
    | true =>
      simp only [if_pos] at h
      rw [List.set_set] at h
      set node := (findNodeByName model.nodes nodeNames jointName).getD
        defaultNode with hnode
      have hlen : j < (animation.tracks.set i
          (padTrack node track1)).length := by
        simpa using hj
      by_cases hij : j = i
      · subst hij
        refine ih _ _ h j (by simpa using hj) (Or.inl ?_)
        rw [list_getD_set_self _ _ _ _ hj]
        exact padTrack_nonempty node track1
      · refine ih _ _ h j (by simpa using hj) ?_
        rw [list_getD_set_ne _ _ _ _ _ (fun he => hij he.symm)]
        rcases hd with hd | hd
        · exact Or.inl hd
        · simp only [List.map_cons, List.mem_cons] at hd
          rcases hd with hd | hd
          · exact absurd hd hij
          · exact Or.inr hd

/-- C8: after sampling, any of a joint's three key sequences left empty
receives exactly one bind-pose key at time 0 — value taken from the bind
node's field, defaulting to zero translation, identity rotation `(0,0,0,1)`
and unit scale when the field is absent; non-empty sequences are left
untouched, and hence every track of a successful import has at least one
key per property. -/
theorem bind_pose_padding_fills_empty_sequences :
    (∀ (node : Node) (track : JointTrack),
      (track.translations = [] → (padTrack node track).translations =
        [⟨0, node.translation.getD ⟨0, 0, 0⟩⟩]) ∧
      (track.translations ≠ [] →
        (padTrack node track).translations = track.translations) ∧
      (track.rotations = [] → (padTrack node track).rotations =
        [⟨0, node.rotation.getD ⟨0, 0, 0, 1⟩⟩]) ∧
      (track.rotations ≠ [] →
        (padTrack node track).rotations = track.rotations) ∧
      (track.scales = [] → (padTrack node track).scales =
        [⟨0, node.scale.getD ⟨1, 1, 1⟩⟩]) ∧
      (track.scales ≠ [] → (padTrack node track).scales = track.scales)) ∧
    (∀ (model : Model) (nodeNames : List (ℕ × String))
        (jointNames : List String) (samplingRate0 : ℚ)
        (animationName : String) (validate : RawAnimation → Bool)
        (animation : RawAnimation) (anim1 : RawAnimation),
      importAnimation model nodeNames jointNames samplingRate0 animationName
          validate animation = (true, anim1) →
      ∀ j < jointNames.length,
        (anim1.tracks.getD j emptyTrack).translations ≠ [] ∧
        (anim1.tracks.getD j emptyTrack).rotations ≠ [] ∧
        (anim1.tracks.getD j emptyTrack).scales ≠ []) := by
  constructor
  · intro node track
    refine ⟨?_, ?_, ?_, ?_, ?_, ?_⟩ <;> intro h <;>
      simp_all [padTrack, CreateTranslationBindPoseKey,
        CreateRotationBindPoseKey, CreateScaleBindPoseKey, List.isEmpty_iff]
  · intro model nodeNames jointNames samplingRate0 animationName validate
      animation anim1 h j hj
    unfold importAnimation at h
    rcases hga : model.animations.find? (fun a => a.name = animationName)
      with _ | ga
    · rw [hga] at h
      simp at h
    · simp only [hga] at h
      rcases hjj : importJoints model ga nodeNames
          (if samplingRate0 = 0 then 60 else samplingRate0)
          ((List.range jointNames.length).zip jointNames)
          { animation with
            name := ga.name
            duration := 0
            tracks := resizeTracks animation.tracks jointNames.length }
        with ⟨flag, anim2⟩
      rw [hjj] at h
      cases flag with
      | false => simp at h
      | true =>
        have h21 : anim2 = anim1 := by
          by_cases hv : validate anim2
          · simpa [hv] using h
          · simp [hv] at h
        have hmem : j ∈ ((List.range jointNames.length).zip
            jointNames).map Prod.fst := by
          rw [List.map_fst_zip (List.range jointNames.length) jointNames
            (by simp)]
          exact List.mem_range.mpr hj
        have := importJoints_nonempty model ga nodeNames
          (if samplingRate0 = 0 then 60 else samplingRate0) _ _ _ hjj j
          (by simpa [resizeTracks_length] using hj) (Or.inr hmem)
        rw [h21] at this
        exact this

theorem bind_pose_padding_fills_empty_sequences_witness :
    ((⟨"walk", 0, [⟨[⟨0, ⟨7, 8, 9⟩⟩], [⟨0, ⟨0, 0, 0, 1⟩⟩], [⟨0, ⟨1, 1, 1⟩⟩]⟩]⟩ :
        RawAnimation).tracks.getD 0 emptyTrack).translations ≠ [] ∧
    ((⟨"walk", 0, [⟨[⟨0, ⟨7, 8, 9⟩⟩], [⟨0, ⟨0, 0, 0, 1⟩⟩], [⟨0, ⟨1, 1, 1⟩⟩]⟩]⟩ :
        RawAnimation).tracks.getD 0 emptyTrack).rotations ≠ [] ∧
    ((⟨"walk", 0, [⟨[⟨0, ⟨7, 8, 9⟩⟩], [⟨0, ⟨0, 0, 0, 1⟩⟩], [⟨0, ⟨1, 1, 1⟩⟩]⟩]⟩ :
        RawAnimation).tracks.getD 0 emptyTrack).scales ≠ [] :=
  bind_pose_padding_fills_empty_sequences.2 strayChannelModel [(0, "A")]
    ["A"] 60 "walk" (fun _ => true) ⟨"", 0, []⟩ _ (by decide) 0 (by decide)

/-- C9, amended: the LINEAR/STEP count-equality checks and the CUBICSPLINE
multiple-of-3 check are debug-only `assert`s, compiled out in release
builds; nothing is signalled to the caller.  With well-formed element sizes
a LINEAR translation channel samples successfully *whatever* the relation
between the input and output accessor counts, emitting one key per the
*output* accessor count; only a `BufferView` element-size mismatch fails
the channel (and with it the current animation import). -/
theorem count_mismatch_only_asserted (model : Model) (sampler : Sampler)
    (d : ℚ) (track : JointTrack) (rate : ℚ) :
    ((model.accessors.getD sampler.input defaultAccessor).elementSize = 4 →
      (model.accessors.getD sampler.output defaultAccessor).elementSize = 12 →
      sampler.interpolation = "LINEAR" →
      (SampleAnimationChannel model sampler "translation" d track rate).1 =
          true ∧
        (SampleAnimationChannel model sampler "translation" d track
            rate).2.2.translations.length =
          (model.accessors.getD sampler.output defaultAccessor).count) ∧
    ((model.accessors.getD sampler.input defaultAccessor).elementSize ≠ 4 →
      (SampleAnimationChannel model sampler "translation" d track rate).1 =
        false) := by
  constructor
  · intro h4 h12 hL
    simp only [SampleAnimationChannel, bufferFloat, bufferVec3, hL, h4, h12]
    norm_num [SampleLinearChannel]
  · intro h4
    simp only [SampleAnimationChannel, bufferFloat]
    rw [if_neg h4]

theorem count_mismatch_only_asserted_witness :
    (SampleAnimationChannel mismatchModel ⟨0, 1, "LINEAR"⟩ "translation" 0
        emptyTrack 60).1 = true ∧
    (SampleAnimationChannel mismatchModel ⟨0, 1, "LINEAR"⟩ "translation" 0
        emptyTrack 60).2.2.translations.length =
      (mismatchModel.accessors.getD 1 defaultAccessor).count :=
  (count_mismatch_only_asserted mismatchModel ⟨0, 1, "LINEAR"⟩ 0 emptyTrack
      60).1 (by decide) (by decide) (by decide)

/-! ## Registry persistence lemmas (shared) -/

/-- The name `CreateJointName` starts from before consulting the registry:
the raw node name, or `"gltf_node_<i>"` when it is empty. -/
def baseName (nodes : List Node) (i : ℕ) : String :=
  if (nodes.getD i defaultNode).name.length = 0 then
    "gltf_node_" ++ toString i
  else (nodes.getD i defaultNode).name

theorem baseName_def (nodes : List Node) (i : ℕ) :
    (if (nodes.getD i defaultNode).name.length = 0 then
        "gltf_node_" ++ toString i
      else (nodes.getD i defaultNode).name) = baseName nodes i := rfl

theorem createJointName_fresh (nodes : List Node) (reg : NameRegistry)
    (i : ℕ) (h : reg.lookup (baseName nodes i) = none) :
    CreateJointName nodes reg i =
      (baseName nodes i, (baseName nodes i, i) :: reg) := by
  simp only [CreateJointName, baseName_def]
  rw [h]
  simp only [Option.isSome_none, Bool.false_eq_true, if_false]
  rw [h]
  simp only [Option.isSome_none, Bool.false_eq_true, if_false]

theorem createJointName_collision (nodes : List Node) (reg : NameRegistry)
    (i : ℕ) (h : (reg.lookup (baseName nodes i)).isSome = true) :
    (CreateJointName nodes reg i).1 =
      baseName nodes i ++ "_" ++ toString i := by
  simp only [CreateJointName, baseName_def]
  rw [h]
  simp

theorem lookup_cons_isSome (k : String) (p : String × ℕ)
    (reg : NameRegistry) (h : (reg.lookup k).isSome = true) :
    (((p :: reg).lookup k).isSome) = true := by
  rcases p with ⟨a, b⟩
  simp only [List.lookup]
  split
  · rfl
  · exact h

theorem createJointName_reg_cases (nodes : List Node) (reg : NameRegistry)
    (i : ℕ) :
    (CreateJointName nodes reg i).2 = reg ∨
    ∃ p, (CreateJointName nodes reg i).2 = p :: reg := by
  simp only [CreateJointName, baseName_def]
  generalize (if (List.lookup (baseName nodes i) reg).isSome = true then
    baseName nodes i ++ "_" ++ toString i else baseName nodes i) = nm
  by_cases h : (reg.lookup nm).isSome = true
  · rw [if_pos h]
    exact Or.inl rfl
  · rw [if_neg h]
    exact Or.inr ⟨_, rfl⟩

theorem createJointName_lookup_mono (nodes : List Node) (reg : NameRegistry)
    (i : ℕ) (k : String) (h : (reg.lookup k).isSome = true) :
    (((CreateJointName nodes reg i).2).lookup k).isSome = true := by
  rcases createJointName_reg_cases nodes reg i with hcase | ⟨p, hcase⟩
  · rw [hcase]; exact h
  · rw [hcase]; exact lookup_cons_isSome k p reg h

theorem createJointName_registers (nodes : List Node) (reg : NameRegistry)
    (i : ℕ) :
    (((CreateJointName nodes reg i).2).lookup (baseName nodes i)).isSome =
      true := by
  by_cases hb : (reg.lookup (baseName nodes i)).isSome = true
  · exact createJointName_lookup_mono nodes reg i _ hb
  · have hnone : reg.lookup (baseName nodes i) = none := by
      rcases hlook : reg.lookup (baseName nodes i) with _ | v
      · rfl
      · rw [hlook] at hb
        simp at hb
    rw [createJointName_fresh nodes reg i hnone]
    simp [List.lookup]

theorem assignNames_lookup_mono (nodes : List Node) :
    ∀ (order : List ℕ) (reg : NameRegistry) (k : String),
      (reg.lookup k).isSome = true →
      (((assignNames nodes order reg).2).lookup k).isSome = true := by
  intro order
  induction order with
  | nil => intro reg k h; exact h
  | cons i rest ih =>
    intro reg k h
    rcases hc : CreateJointName nodes reg i with ⟨n1, reg1⟩
    rcases hr : assignNames nodes rest reg1 with ⟨names, reg2⟩
    simp only [assignNames, hc, hr]
    have h1 := createJointName_lookup_mono nodes reg i k h
    rw [hc] at h1
    have h2 := ih reg1 k h1
    rw [hr] at h2
    exact h2

/-- After a naming pass, the base name of every visited node is registered
(either it was already present, or its un-suffixed form was inserted). -/
theorem assignNames_registers (nodes : List Node) :
    ∀ (order : List ℕ) (reg : NameRegistry) (i : ℕ), i ∈ order →
      (((assignNames nodes order reg).2).lookup (baseName nodes i)).isSome =
        true := by
  intro order
  induction order with
  | nil => intro reg i h; simp at h
  | cons j rest ih =>
    intro reg i hi
    rcases hc : CreateJointName nodes reg j with ⟨n1, reg1⟩
    rcases hr : assignNames nodes rest reg1 with ⟨names, reg2⟩
    simp only [assignNames, hc, hr]
    rcases List.mem_cons.mp hi with hij | hmem
    · subst hij
      have hb := createJointName_registers nodes reg i
      rw [hc] at hb
      have h2 := assignNames_lookup_mono nodes rest reg1 _ hb
      rw [hr] at h2
      exact h2
    · have h2 := ih reg1 i hmem
      rw [hr] at h2
      exact h2

theorem append_suffix_ne (s t : String) : s ++ "_" ++ t ≠ s := by
  have h1 : ("_" : String).length = 1 := rfl
  intro h
  have h2 := congrArg String.length h
  rw [String.length_append, String.length_append, h1] at h2
  omega

/-- C10: the joint-name registry is a function-local `static` surviving
across `Import` calls, so building the skeleton twice over the same nodes
(same non-empty visit order, fresh process) yields different name lists:
the first build assigns the first visited joint its base name, the second
build finds that name registered, treats it as a collision and returns the
`"_<index>"`-suffixed name — two-run equality of outputs on equal inputs is
violated. -/
theorem second_skeleton_build_renames (nodes : List Node) (i : ℕ)
    (rest : List ℕ) :
    (assignNames nodes (i :: rest) []).1.head? = some (baseName nodes i) ∧
    (assignNames nodes (i :: rest)
        ((assignNames nodes (i :: rest) []).2)).1.head? =
      some (baseName nodes i ++ "_" ++ toString i) ∧
    (assignNames nodes (i :: rest) []).1 ≠
      (assignNames nodes (i :: rest)
        ((assignNames nodes (i :: rest) []).2)).1 := by
  have hfresh := createJointName_fresh nodes [] i rfl
  rcases hrun1 : assignNames nodes (i :: rest) [] with ⟨names1, reg1⟩
  have hhead1 : names1.head? = some (baseName nodes i) := by
    rcases hr : assignNames nodes rest [(baseName nodes i, i)]
      with ⟨names', reg'⟩
    have hall : assignNames nodes (i :: rest) [] =
        (baseName nodes i :: names', reg') := by
      simp only [assignNames, hfresh, hr]
    rw [hall] at hrun1
    injection hrun1 with ha hb
    rw [← ha]
    rfl
  have hreg : ((reg1).lookup (baseName nodes i)).isSome = true := by
    have h2 := assignNames_registers nodes (i :: rest) [] i
      (List.mem_cons_self i rest)
    rw [hrun1] at h2
    exact h2
  rcases hc2 : CreateJointName nodes reg1 i with ⟨n2, reg2⟩
  have hn2 : n2 = baseName nodes i ++ "_" ++ toString i := by
    have h2 := createJointName_collision nodes reg1 i hreg
    rw [hc2] at h2
    exact h2
  rcases hr2 : assignNames nodes rest reg2 with ⟨names2, reg3⟩
  have hrun2 : assignNames nodes (i :: rest) reg1 = (n2 :: names2, reg3) := by
    simp only [assignNames, hc2, hr2]
  refine ⟨?_, ?_, ?_⟩
  · exact hhead1
  · show (assignNames nodes (i :: rest) reg1).1.head? =
      some (baseName nodes i ++ "_" ++ toString i)
    rw [hrun2]
    simp [hn2]
  · show names1 ≠ (assignNames nodes (i :: rest) reg1).1
    rw [hrun2]
    intro heq
    have h1 := hhead1
    rw [heq] at h1
    simp only [List.head?_cons, Option.some.injEq] at h1
    rw [hn2] at h1
    exact append_suffix_ne (baseName nodes i) (toString i) h1

end Gltf2Ozz